import Mathlib

/-!
Shallow embedding of the response-parsing layer (`helper_func.py`) and the
iterative test-and-repair controller (`prompts.py`) of the Cogito-Code
repository, together with theorems settling the specification claims about
them.

Modelling conventions:
* Python values flowing through the core are modelled by the inductive
  `PyVal` (strings, ints, floats, bools, None, lists, dicts).  Python dicts
  are insertion-ordered association lists with in-place overwrite on key
  reassignment (`setAssoc`), mirroring CPython dict semantics.
* Functions that can raise a Python exception are modelled in
  `Except String _`; the error string stands for the exception message.
* `str()` / `repr()` rendering is modelled by `pyStr` / `pyRepr` for the
  value domain above (ASCII case conversion; JSON float literals are carried
  as their source token, which never contains the letters the failure
  detector looks for).
* The external model client (`model.respond`) is an arbitrary function from
  the call counter to a response or an exception, since the source treats it
  as an opaque collaborator and the prompt wording is configuration, not
  core logic.
* All string manipulation is done with hand-rolled structural functions on
  `List Char` so that every definition evaluates inside the kernel.
-/

/-- A Python value, as produced and consumed by the parsing layer. -/
inductive PyVal where
  | str (s : String)
  | int (n : Int)
  | float (tok : String)
  | bool (b : Bool)
  | none
  | list (xs : List PyVal)
  | dict (kvs : List (String × PyVal))
deriving Repr

/-- Does `l` start with `p`? -/
def listStartsWith : List Char → List Char → Bool
  | _, [] => true
  | [], _ :: _ => false
  | a :: as, b :: bs => a = b && listStartsWith as bs

/-- Is `needle` a contiguous sublist of `hay`? -/
def listContainsSub (needle : List Char) : List Char → Bool
  | [] => listStartsWith [] needle
  | c :: rest => listStartsWith (c :: rest) needle || listContainsSub needle rest

/-- Python `needle in hay` substring test. -/
def pyIn (needle hay : String) : Bool :=
  listContainsSub needle.data hay.data

/-- ASCII lower-casing of a character, as `str.lower()` does on ASCII text. -/
def charLower (c : Char) : Char :=
  if 'A' ≤ c && c ≤ 'Z' then Char.ofNat (c.toNat + 32) else c

/-- Python `str.lower()` (ASCII fragment). -/
def pyLowerStr (s : String) : String :=
  String.mk (s.data.map charLower)

/-- ASCII whitespace stripped by Python `str.strip()`. -/
def isPyWs (c : Char) : Bool :=
  c = ' ' || c = '\t' || c = '\n' || c = '\r' || c = Char.ofNat 11 || c = Char.ofNat 12

def pyStripList (l : List Char) : List Char :=
  ((l.dropWhile isPyWs).reverse.dropWhile isPyWs).reverse

/-- Python `str.strip()` (whitespace on both ends). -/
def pyStrip (s : String) : String :=
  String.mk (pyStripList s.data)

/-- Split a character list at every occurrence of `sep`, like
`str.split(sep)` for a one-character separator. -/
def splitOnChar (sep : Char) : List Char → List (List Char)
  | [] => [[]]
  | c :: rest =>
    let r := splitOnChar sep rest
    if c = sep then [] :: r
    else
      match r with
      | [] => [[c]]
      | h :: t => (c :: h) :: t

/-- The single-quote character (used by Python string repr). -/
def squote : Char := Char.ofNat 39

/-- The double-quote character. -/
def dquote : Char := Char.ofNat 34

/-- Python `repr` of a string: picks a quote character and escapes. -/
def pyStrRepr (s : String) : String :=
  let q := if s.data.contains squote && !(s.data.contains dquote) then dquote else squote
  let esc := s.data.foldr
    (fun c acc =>
      if c = '\\' then '\\' :: '\\' :: acc
      else if c = q then '\\' :: c :: acc
      else if c = '\n' then '\\' :: 'n' :: acc
      else if c = '\r' then '\\' :: 'r' :: acc
      else if c = '\t' then '\\' :: 't' :: acc
      else c :: acc) []
  String.mk (q :: esc ++ [q])

mutual

/-- Python `repr` of a value (as used inside container renderings). -/
def pyRepr : PyVal → String
  | .str s => pyStrRepr s
  | .int n => toString n
  | .float tok => tok
  | .bool b => if b then "True" else "False"
  | .none => "None"
  | .list xs => "[" ++ pyReprSeq xs ++ "]"
  | .dict kvs => "\x7b" ++ pyReprKVs kvs ++ "\x7d"

def pyReprSeq : List PyVal → String
  | [] => ""
  | [x] => pyRepr x
  | x :: y :: xs => pyRepr x ++ ", " ++ pyReprSeq (y :: xs)

def pyReprKVs : List (String × PyVal) → String
  | [] => ""
  | [(k, v)] => pyStrRepr k ++ ": " ++ pyRepr v
  | (k, v) :: kv :: kvs => pyStrRepr k ++ ": " ++ pyRepr v ++ ", " ++ pyReprKVs (kv :: kvs)

end

/-- Python `str()` of a value. -/
def pyStr : PyVal → String
  | .str s => s
  | v => pyRepr v

/-- Is the value a Python dict? -/
def PyVal.isDict : PyVal → Bool
  | .dict _ => true
  | _ => false

/-- Python dict item assignment `d[k] = v` on the backing association list:
overwrite in place if the key is present, append otherwise. -/
def setAssoc : List (String × PyVal) → String → PyVal → List (String × PyVal)
  | [], k, v => [(k, v)]
  | (k0, v0) :: rest, k, v =>
    if k0 = k then (k0, v) :: rest else (k0, v0) :: setAssoc rest k v

/-- Python dict item assignment on a `PyVal`.  Assigning on a non-dict would
raise `TypeError` in Python; it is left unchanged here and the loop theorems
show the value at every assignment site is a dict. -/
def dictSet (d : PyVal) (k : String) (v : PyVal) : PyVal :=
  match d with
  | .dict kvs => .dict (setAssoc kvs k v)
  | other => other

/-- Read a key out of a `PyVal` dict (used to state theorems about the
records the loop returns). -/
def dictGet (v : PyVal) (k : String) : Option PyVal :=
  match v with
  | .dict kvs => kvs.lookup k
  | _ => Option.none

/-! ## `code_extractor` (helper_func.py lines 45-63)

Python: `re.compile(r"```(?:[a-zA-Z]+)?\n(.*?)\n```", re.DOTALL).search(result)`,
returning the first group stripped, else the whole text stripped.
A position matches the opening when three backticks are followed by a run of
ASCII letters and then directly a newline; the lazy group then spans to the
first later `"\n```"`.  `search` takes the first position where the whole
pattern (opening and closing fence) matches. -/

/-- The backtick character. -/
def btick : Char := Char.ofNat 96

/-- After `"```"`: consume an optional run of ASCII letters, then require a
newline; return the characters after that newline. -/
def afterFenceLang : List Char → Option (List Char)
  | [] => Option.none
  | c :: rest =>
    if c = '\n' then some rest
    else if c.isAlpha then afterFenceLang rest
    else Option.none

/-- Does a fenced-block opening match at the head of `l`?  If so, return the
characters following the opening newline. -/
def fenceOpen (l : List Char) : Option (List Char) :=
  match l with
  | a :: b :: c :: rest =>
    if a = btick && b = btick && c = btick then afterFenceLang rest else Option.none
  | _ => Option.none

/-- Lazily matched group contents: the characters before the first
`"\n```"`, if the closing fence occurs at all. -/
def fenceContent : List Char → Option (List Char)
  | [] => Option.none
  | c :: rest =>
    if c = '\n' && listStartsWith rest [btick, btick, btick] then some []
    else (fenceContent rest).map (c :: ·)

/-- Leftmost full match of the fenced-block pattern: first position where an
opening fence matches and a closing fence follows. -/
def findFence : List Char → Option (List Char)
  | [] => Option.none
  | c :: rest =>
    match fenceOpen (c :: rest) with
    | some after =>
      match fenceContent after with
      | some content => some content
      | Option.none => findFence rest
    | Option.none => findFence rest

/-- `code_extractor` from helper_func.py: contents of the first fenced block
(stripped), else the entire text stripped. -/
def code_extractor (result : String) : String :=
  match findFence result.data with
  | some content => String.mk (pyStripList content)
  | Option.none => pyStrip result

/-! ## `extract_test_results` (helper_func.py lines 66-122) -/

/-- The opening-brace character. -/
def obrace : Char := Char.ofNat 123

/-- The closing-brace character. -/
def cbrace : Char := Char.ofNat 125

/-- The text from the first opening brace onwards. -/
def braceTail (s : String) : List Char :=
  s.data.dropWhile (fun c => c != obrace)

/-- `braceTail` truncated after the last closing brace. -/
def braceSpanList (s : String) : List Char :=
  ((braceTail s).reverse.dropWhile (fun c => c != cbrace)).reverse

/-- `re.compile(r"\{[\s\S]*\}").search(test_output)`: the greedy pattern
matches from the first opening brace that precedes the final closing brace,
through that final closing brace; no match otherwise. -/
def braceSpan (s : String) : Option String :=
  if (braceSpanList s).isEmpty then Option.none else some (String.mk (braceSpanList s))

/-- JSON whitespace accepted by Python `json.loads`. -/
def isJsonWs (c : Char) : Bool :=
  c = ' ' || c = '\t' || c = '\n' || c = '\r'

def jsonSkipWs (l : List Char) : List Char :=
  l.dropWhile isJsonWs

def hexVal (c : Char) : Option Nat :=
  if c.isDigit then some (c.toNat - 48)
  else if 'a' ≤ c && c ≤ 'f' then some (c.toNat - 87)
  else if 'A' ≤ c && c ≤ 'F' then some (c.toNat - 55)
  else Option.none

/-- JSON string body (after the opening quote), with the escapes `json.loads`
accepts; strict mode rejects raw control characters.  The fuel argument makes
the recursion structural; one unit is spent per consumed character. -/
def parseJString : Nat → List Char → Option (String × List Char)
  | 0, _ => Option.none
  | fuel + 1, cs =>
    match cs with
    | [] => Option.none
    | c :: rest =>
      if c = dquote then some ("", rest)
      else if c = '\\' then
        match rest with
        | [] => Option.none
        | e :: rest2 =>
          let cont := fun (ch : Char) (r : List Char) =>
            (parseJString fuel r).map fun sr => (String.mk (ch :: sr.1.data), sr.2)
          if e = dquote then cont dquote rest2
          else if e = '\\' then cont '\\' rest2
          else if e = '/' then cont '/' rest2
          else if e = 'n' then cont '\n' rest2
          else if e = 't' then cont '\t' rest2
          else if e = 'r' then cont '\r' rest2
          else if e = 'b' then cont (Char.ofNat 8) rest2
          else if e = 'f' then cont (Char.ofNat 12) rest2
          else if e = 'u' then
            match rest2 with
            | h1 :: h2 :: h3 :: h4 :: rest3 =>
              match hexVal h1, hexVal h2, hexVal h3, hexVal h4 with
              | some a, some b, some c2, some d =>
                cont (Char.ofNat (((a * 16 + b) * 16 + c2) * 16 + d)) rest3
              | _, _, _, _ => Option.none
            | _ => Option.none
          else Option.none
      else if c.toNat < 32 then Option.none
      else (parseJString fuel rest).map fun sr => (String.mk (c :: sr.1.data), sr.2)

/-- JSON integer part: `0`, or a nonzero digit followed by digits (leading
zeros are rejected, as in `json.loads`). -/
def parseIntPart : List Char → Option (List Char × List Char)
  | [] => Option.none
  | c :: rest =>
    if c = '0' then some (['0'], rest)
    else if c.isDigit then
      some (c :: rest.takeWhile Char.isDigit, rest.dropWhile Char.isDigit)
    else Option.none

/-- Optional JSON fraction part. -/
def parseFracPart : List Char → Option (List Char × List Char)
  | '.' :: rest =>
    match rest.takeWhile Char.isDigit with
    | [] => Option.none
    | ds => some ('.' :: ds, rest.dropWhile Char.isDigit)
  | l => some ([], l)

/-- Optional JSON exponent part. -/
def parseExpPart : List Char → Option (List Char × List Char)
  | [] => some ([], [])
  | c :: rest =>
    if c = 'e' || c = 'E' then
      let sr : List Char × List Char :=
        match rest with
        | s :: r => if s = '+' || s = '-' then ([s], r) else ([], s :: r)
        | [] => ([], [])
      match sr.2.takeWhile Char.isDigit with
      | [] => Option.none
      | ds => some (c :: sr.1 ++ ds, sr.2.dropWhile Char.isDigit)
    else some ([], c :: rest)

/-- JSON number: an `int` when there is no fraction or exponent, otherwise a
float carried as its source token. -/
def parseJNumber (l : List Char) : Option (PyVal × List Char) :=
  let sgn : Bool × List Char :=
    match l with
    | '-' :: rest => (true, rest)
    | _ => (false, l)
  match parseIntPart sgn.2 with
  | Option.none => Option.none
  | some (ip, l2) =>
    match parseFracPart l2 with
    | Option.none => Option.none
    | some (fp, l3) =>
      match parseExpPart l3 with
      | Option.none => Option.none
      | some (ep, l4) =>
        if fp.isEmpty && ep.isEmpty then
          let n : Nat := ip.foldl (fun a c => a * 10 + (c.toNat - 48)) 0
          some (.int (if sgn.1 then -(n : Int) else (n : Int)), l4)
        else
          some (.float (String.mk ((if sgn.1 then ['-'] else []) ++ ip ++ fp ++ ep)), l4)

/-- The JSON literals `true` / `false` / `null`, the non-standard constants
`NaN` / `Infinity` / `-Infinity` that `json.loads` accepts by default, and
numbers. -/
def parseJConst (l : List Char) : Option (PyVal × List Char) :=
  match l with
  | 't' :: 'r' :: 'u' :: 'e' :: r => some (.bool true, r)
  | 'f' :: 'a' :: 'l' :: 's' :: 'e' :: r => some (.bool false, r)
  | 'n' :: 'u' :: 'l' :: 'l' :: r => some (.none, r)
  | 'N' :: 'a' :: 'N' :: r => some (.float "nan", r)
  | 'I' :: 'n' :: 'f' :: 'i' :: 'n' :: 'i' :: 't' :: 'y' :: r => some (.float "inf", r)
  | '-' :: 'I' :: 'n' :: 'f' :: 'i' :: 'n' :: 'i' :: 't' :: 'y' :: r => some (.float "-inf", r)
  | l2 => parseJNumber l2

mutual

/-- A JSON value, per Python `json.loads`.  Objects become ordered
dicts with last-occurrence-wins duplicate keys, as in CPython. -/
def parseJValue : Nat → List Char → Option (PyVal × List Char)
  | 0, _ => Option.none
  | fuel + 1, cs =>
    match jsonSkipWs cs with
    | [] => Option.none
    | c :: rest =>
      if c = obrace then
        match jsonSkipWs rest with
        | [] => Option.none
        | d :: rest2 =>
          if d = cbrace then some (.dict [], rest2)
          else
            (parseJMembers fuel rest).map fun pr =>
              (.dict (pr.1.foldl (fun acc kv => setAssoc acc kv.1 kv.2) []), pr.2)
      else if c = '[' then
        match jsonSkipWs rest with
        | [] => Option.none
        | d :: rest2 =>
          if d = ']' then some (.list [], rest2)
          else (parseJElems fuel rest).map fun xr => (.list xr.1, xr.2)
      else if c = dquote then
        (parseJString fuel rest).map fun sr => (.str sr.1, sr.2)
      else
        parseJConst (c :: rest)

/-- Members of a JSON object after the opening brace (at least one pair). -/
def parseJMembers : Nat → List Char → Option (List (String × PyVal) × List Char)
  | 0, _ => Option.none
  | fuel + 1, cs =>
    match jsonSkipWs cs with
    | [] => Option.none
    | c :: r0 =>
      if c = dquote then
        match parseJString fuel r0 with
        | Option.none => Option.none
        | some (k, r1) =>
          match jsonSkipWs r1 with
          | [] => Option.none
          | d :: r2 =>
            if d = ':' then
              match parseJValue fuel r2 with
              | Option.none => Option.none
              | some (v, r3) =>
                match jsonSkipWs r3 with
                | [] => Option.none
                | e :: r4 =>
                  if e = ',' then
                    match parseJMembers fuel r4 with
                    | some (ps, r5) => some ((k, v) :: ps, r5)
                    | Option.none => Option.none
                  else if e = cbrace then some ([(k, v)], r4)
                  else Option.none
            else Option.none
      else Option.none

/-- Elements of a JSON array after the opening bracket (at least one). -/
def parseJElems : Nat → List Char → Option (List PyVal × List Char)
  | 0, _ => Option.none
  | fuel + 1, cs =>
    match parseJValue fuel cs with
    | Option.none => Option.none
    | some (v, r1) =>
      match jsonSkipWs r1 with
      | [] => Option.none
      | d :: r2 =>
        if d = ',' then
          match parseJElems fuel r2 with
          | some (xs, r3) => some (v :: xs, r3)
          | Option.none => Option.none
        else if d = ']' then some ([v], r2)
        else Option.none

end

/-- Python `json.loads`: a single JSON document, with nothing but whitespace
after it.  The fuel `s.length + 4` exceeds the one unit spent per consumed
character, so it never runs out on the actual input. -/
def json_loads (s : String) : Option PyVal :=
  match parseJValue (s.length + 4) s.data with
  | some (v, rest) => if (jsonSkipWs rest).isEmpty then some v else Option.none
  | Option.none => Option.none

/-- One line matched against `r"^\|(.*)\|$"`: the line must start and end
with a pipe (and have length at least 2); the capture group excludes those
two outer pipes. -/
def rowCapture (line : List Char) : Option (List Char) :=
  match line with
  | [] => Option.none
  | c :: rest =>
    if c = '|' then
      match rest.getLast? with
      | some d => if d = '|' then some rest.dropLast else Option.none
      | Option.none => Option.none
    else Option.none

/-- `re.findall(r"^\|(.*)\|$", test_output, re.MULTILINE)`: the capture of
every line of the text that matches. -/
def mdRows (s : String) : List (List Char) :=
  (splitOnChar '\n' s.data).filterMap rowCapture

/-- Split a captured row on inner pipes and strip each cell
(`[h.strip() for h in row.split("|")]`). -/
def rowCells (r : List Char) : List String :=
  (splitOnChar '|' r).map (fun c => String.mk (pyStripList c))

/-- One data row zipped against the headers by position
(`{headers[j]: values[j] for j in range(len(headers)) if j < len(values)}`). -/
def rowToCase (headers : List String) (r : List Char) : PyVal :=
  .dict ((headers.zip (rowCells r)).foldl (fun acc kv => setAssoc acc kv.1 (.str kv.2)) [])

/-- The header list the markdown strategy builds from row 0 (defined whenever
the strategy finds at least 3 rows). -/
def mdHeaders (s : String) : Option (List String) :=
  match mdRows s with
  | r0 :: _ :: _ :: _ => some (rowCells r0)
  | _ => Option.none

/-- The markdown-table strategy: needs at least 3 matched rows (header,
separator, data...); skips row 1; wraps the per-row mappings in order. -/
def mdParse (s : String) : Option PyVal :=
  match mdRows s with
  | r0 :: _ :: d0 :: ds =>
    some (.dict [("test_cases", .list ((d0 :: ds).map (rowToCase (rowCells r0))))])
  | _ => Option.none

/-- `extract_test_results` from helper_func.py: JSON-substring strategy
first, markdown-table strategy second, raw-text fallback last.  Total by
construction, mirroring the enclosing `try/except` that absorbs every
parsing exception. -/
def extract_test_results (test_output : String) : PyVal :=
  let jsonAttempt :=
    match braceSpan test_output with
    | some sub => json_loads sub
    | Option.none => Option.none
  match jsonAttempt with
  | some v => v
  | Option.none =>
    match mdParse test_output with
    | some v => v
    | Option.none => .dict [("raw_output", .str test_output)]

/-! ## `has_failed_tests` (helper_func.py lines 125-159) -/

/-- Python `for x in v`: lists yield their elements, strings their
characters, dicts their keys; other values raise `TypeError`. -/
def pyIterVal : PyVal → Except String (List PyVal)
  | .list xs => .ok xs
  | .str s => .ok (s.data.map fun c => .str (String.mk [c]))
  | .dict kvs => .ok (kvs.map fun kv => .str kv.1)
  | .int _ => .error "TypeError: int object is not iterable"
  | .float _ => .error "TypeError: float object is not iterable"
  | .bool _ => .error "TypeError: bool object is not iterable"
  | .none => .error "TypeError: NoneType object is not iterable"

/-- Python `v[k]` for a string key `k`. -/
def pySubscript : PyVal → String → Except String PyVal
  | .dict kvs, k =>
    match kvs.lookup k with
    | some v => .ok v
    | Option.none => .error "KeyError"
  | .list _, _ => .error "TypeError: list indices must be integers"
  | _, _ => .error "TypeError: value is not subscriptable"

/-- Python `v.lower()`: only strings have the attribute. -/
def pyLowerVal : PyVal → Except String String
  | .str s => .ok (pyLowerStr s)
  | _ => .error "AttributeError: object has no attribute lower"

/-- `"status" in k.lower() or "pass" in k.lower()`. -/
def isStatusName (s : String) : Bool :=
  pyIn "status" (pyLowerStr s) || pyIn "pass" (pyLowerStr s)

/-- `next((k for k in test if "status" in k.lower() or "pass" in k.lower()), None)`:
evaluating the generator calls `.lower()` on each element in turn, so a
non-string element raises before a later match can be found. -/
def findStatusKey : List PyVal → Except String (Option String)
  | [] => .ok Option.none
  | k :: ks =>
    match k with
    | .str s => if isStatusName s then .ok (some s) else findStatusKey ks
    | _ => .error "AttributeError: object has no attribute lower"

/-- The `for test in test_results["test_cases"]` loop body: find the first
status/pass-named key; if it exists and its value contains "fail" or
"error" (case-insensitive), the function returns `True`. -/
def checkCases : List PyVal → Except String Bool
  | [] => .ok false
  | t :: ts => do
    let ks ← pyIterVal t
    let sk ← findStatusKey ks
    match sk with
    | Option.none => checkCases ts
    | some k => do
      let v ← pySubscript t k
      let lv ← pyLowerVal v
      if pyIn "fail" lv || pyIn "error" lv then pure true else checkCases ts

/-- The coarse first gate: `"fail" in str(test_results).lower() or "error" in ...`. -/
def kwPresent (v : PyVal) : Bool :=
  let s := pyLowerStr (pyStr v)
  pyIn "fail" s || pyIn "error" s

/-- `has_failed_tests` from helper_func.py. -/
def has_failed_tests (test_results : PyVal) : Except String Bool :=
  if kwPresent test_results then
    match test_results with
    | .dict kvs =>
      match kvs.lookup "test_cases" with
      | some tcv => do
        let cases ← pyIterVal tcv
        checkCases cases
      | Option.none =>
        match kvs.lookup "raw_output" with
        | some _ => .ok true
        | Option.none => .ok false
    | _ => .ok true
  else .ok false

/-! ## `test_case_gen_checker` (prompts.py lines 105-247) and
`analyze_and_fix_code` (prompts.py lines 38-102)

The model client is abstracted as `model : Nat → Except String String`,
mapping the 0-based `respond` call counter to either a response text or a
raised exception's message; each iteration makes one test-generation call
and, on detected failure, one repair call.  The prompt strings the source
builds are configuration data and do not influence the control flow being
verified, so they are not reconstructed. -/

/-- `analyze_and_fix_code`: invoke the model with the fix prompt and extract
the updated code from its response; a model exception propagates to the
caller's handler. -/
def analyze_and_fix_code (resp : Except String String) : Except String String :=
  resp.map code_extractor

/-- The loop state `test_case_gen_checker` returns (plus the bookkeeping
variables `iteration` and `all_tests_pass` used by its exit conditions). -/
structure LoopOut where
  code : String
  final : PyVal
  iteration : Nat
  allPass : Bool
deriving Repr

/-- The `except` branch of the loop body:
`final_test_results["status"] = "error"`,
`final_test_results["error_message"] = str(e)`, then `break`. -/
def errorOut (code : String) (final : PyVal) (iteration : Nat) (e : String) : LoopOut :=
  ⟨code, dictSet (dictSet final "status" (.str "error")) "error_message" (.str e), iteration, false⟩

/-- The `while not all_tests_pass and iteration < max_iterations` loop.
`fuel` is an upper bound on the remaining iterations making the recursion
structural; it is started at `maxIter` and can only run out together with
the genuine guard `iteration < maxIter`, which is checked first.  The loop
is only ever (re-)entered with `all_tests_pass == False`, so that flag is
not a parameter. -/
def runLoop (model : Nat → Except String String) (maxIter : Nat) :
    Nat → Nat → String → Nat → PyVal → LoopOut
  | fuel, callIdx, currentCode, iteration, final =>
    if maxIter ≤ iteration then ⟨currentCode, final, iteration, false⟩
    else
      match fuel with
      | 0 => ⟨currentCode, final, iteration, false⟩
      | fuel + 1 =>
        match model callIdx with
        | .error e => errorOut currentCode final (iteration + 1) e
        | .ok respText =>
          let testResults := extract_test_results respText
          match has_failed_tests testResults with
          | .error e => errorOut currentCode testResults (iteration + 1) e
          | .ok false =>
            ⟨currentCode, dictSet testResults "status" (.str "complete_success"),
              iteration + 1, true⟩
          | .ok true =>
            match analyze_and_fix_code (model (callIdx + 1)) with
            | .error e => errorOut currentCode testResults (iteration + 1) e
            | .ok newCode =>
              runLoop model maxIter fuel (callIdx + 2) newCode (iteration + 1) testResults

/-- `final_test_results = {"test_cases": [], "status": "incomplete"}`. -/
def initRecord : PyVal :=
  .dict [("test_cases", .list []), ("status", .str "incomplete")]

/-- The whole loop, from the initial state of `test_case_gen_checker`. -/
def runLoopFull (model : Nat → Except String String) (code : String) (maxIter : Nat) : LoopOut :=
  runLoop model maxIter maxIter 0 code 0 initRecord

/-- `test_case_gen_checker` up to (but not including) the final defensive
`isinstance(final_test_results, dict)` wrap: the loop, then the post-loop
`if not all_tests_pass and iteration >= max_iterations` status overwrite. -/
def tcgPreWrap (model : Nat → Except String String) (code : String) (maxIter : Nat) :
    String × PyVal :=
  let o := runLoopFull model code maxIter
  let fin :=
    if o.allPass = false ∧ maxIter ≤ o.iteration then
      dictSet o.final "status" (.str "max_iterations_reached")
    else o.final
  (o.code, fin)

/-- `test_case_gen_checker` from prompts.py: returns the final code and the
final result record (wrapped as `{"raw_output": str(...)}` if it were not a
dict). -/
def test_case_gen_checker (model : Nat → Except String String) (code : String)
    (maxIter : Nat) : String × PyVal :=
  let r := tcgPreWrap model code maxIter
  (r.1, if r.2.isDict then r.2 else .dict [("raw_output", .str (pyStr r.2))])

/-! ## Concrete model stubs and inputs used by the claims -/

/-- A JSON test report in which every case passes. -/
def passJson : String := "\x7b\"test_cases\": [\x7b\"status\": \"PASS\"\x7d]\x7d"

/-- A JSON test report containing a failing case. -/
def failJson : String := "\x7b\"test_cases\": [\x7b\"status\": \"FAIL\"\x7d]\x7d"

/-- The record `failJson` decodes to. -/
def failRecord : PyVal := .dict [("test_cases", .list [.dict [("status", .str "FAIL")]])]

/-- A model stub that always reports failure on test-generation calls (even
call indices) and always returns a code artifact on repair calls (odd call
indices). -/
def alwaysFailModel : Nat → Except String String :=
  fun k => if k % 2 = 0 then .ok failJson else .ok "fixed code"

/-- A model stub that always reports success. -/
def alwaysPassModel : Nat → Except String String :=
  fun _ => .ok passJson

/-- A model stub whose every call raises. -/
def alwaysErrModel : Nat → Except String String :=
  fun _ => .error "boom"

/-- A model stub that behaves like `alwaysFailModel` for the first `j`
iterations (call indices below `2*j`) and then raises `e`. -/
def errAtModel (j : Nat) (e : String) : Nat → Except String String :=
  fun k => if k < 2 * j then alwaysFailModel k else .error e

/-- A model stub whose first (test-generation) call reports a failure and
whose every later call — in particular the first repair call — raises. -/
def repairErrModel : Nat → Except String String :=
  fun k => if k = 0 then .ok failJson else .error "boom2"

/-! ## Claim-side predicates and fixed inputs -/

/-- The first key of a dict whose name contains "status" or "pass"
(case-insensitive) — the key `has_failed_tests` inspects per case. -/
def firstStatusKeyOfDict (kvs : List (String × PyVal)) : Option String :=
  (kvs.map Prod.fst).find? isStatusName

/-- A test case triggers the per-case failure check when its first
status/pass-named key holds a string containing "fail" or "error"
(case-insensitive). -/
def caseTriggers (c : PyVal) : Bool :=
  match c with
  | .dict kvs =>
    match firstStatusKeyOfDict kvs with
    | some k =>
      match kvs.lookup k with
      | some (.str v) => pyIn "fail" (pyLowerStr v) || pyIn "error" (pyLowerStr v)
      | _ => false
    | Option.none => false
  | _ => false

/-- A test case the per-case loop can process without raising: a dict whose
first status/pass-named key (when there is one) holds a string. -/
def caseWF (c : PyVal) : Bool :=
  match c with
  | .dict kvs =>
    match firstStatusKeyOfDict kvs with
    | some k =>
      match kvs.lookup k with
      | some (.str _) => true
      | _ => false
    | Option.none => true
  | _ => false

/-- The markdown-table input documented in the specification. -/
def mdExample : String := "| name | status |\n|---|---|\n| t1 | FAIL |"

/-- The JSON-bearing input documented in the specification. -/
def jsonExample : String := "Result: \x7b\"test_cases\": [\x7b\"status\": \"PASS\"\x7d]\x7d"

/-- The brace span `jsonExample` contains. -/
def jsonExampleSpan : String := "\x7b\"test_cases\": [\x7b\"status\": \"PASS\"\x7d]\x7d"

/-! ## Helper lemmas -/

theorem listLookup_setAssoc_self (l : List (String × PyVal)) (k : String) (v : PyVal) :
    (setAssoc l k v).lookup k = some v := by
  induction l with
  | nil => simp [setAssoc, List.lookup]
  | cons kv rest ih =>
    obtain ⟨k0, v0⟩ := kv
    by_cases h : k0 = k
    · simp [setAssoc, h, List.lookup]
    · simp only [setAssoc, if_neg h, List.lookup]
      have : (k == k0) = false := by
        simp [beq_eq_false_iff_ne]
        exact fun e => h e.symm
      rw [this]
      exact ih

theorem listLookup_setAssoc_ne (l : List (String × PyVal)) (k k2 : String) (v : PyVal)
    (h : k ≠ k2) : (setAssoc l k2 v).lookup k = l.lookup k := by
  induction l with
  | nil =>
    simp only [setAssoc, List.lookup]
    rw [show (k == k2) = false by simpa [beq_eq_false_iff_ne] using h]
  | cons kv rest ih =>
    obtain ⟨k0, v0⟩ := kv
    by_cases h0 : k0 = k2
    · subst h0
      have hk : (k == k0) = false := by simpa [beq_eq_false_iff_ne] using h
      simp only [setAssoc, if_pos rfl, List.lookup, hk]
    · simp only [setAssoc, if_neg h0, List.lookup]
      by_cases hk : k = k0
      · subst hk
        simp
      · simp only [show (k == k0) = false by simpa [beq_eq_false_iff_ne] using hk]
        exact ih

theorem dictSet_isDict (d : PyVal) (k : String) (v : PyVal) (h : d.isDict = true) :
    (dictSet d k v).isDict = true := by
  cases d <;> simp_all [dictSet, PyVal.isDict]

theorem dictGet_dictSet_self (d : PyVal) (k : String) (v : PyVal) (h : d.isDict = true) :
    dictGet (dictSet d k v) k = some v := by
  cases d <;> simp_all [dictSet, dictGet, PyVal.isDict, listLookup_setAssoc_self]

theorem dictGet_dictSet_ne (d : PyVal) (k k2 : String) (v : PyVal) (h : d.isDict = true)
    (hne : k ≠ k2) : dictGet (dictSet d k2 v) k = dictGet d k := by
  cases d <;> simp_all [dictSet, dictGet, PyVal.isDict, listLookup_setAssoc_ne]

theorem dropWhile_head_false {p : Char → Bool} {l : List Char} {c : Char} {r : List Char}
    (h : l.dropWhile p = c :: r) : p c = false := by
  induction l with
  | nil => simp [List.dropWhile] at h
  | cons a as ih =>
    by_cases ha : p a
    · rw [List.dropWhile_cons_of_pos ha] at h
      exact ih h
    · rw [List.dropWhile_cons_of_neg ha] at h
      cases h
      simpa using ha

theorem exists_append_dropWhile {p : Char → Bool} :
    ∀ l : List Char, ∃ t, l = t ++ l.dropWhile p := by
  intro l
  induction l with
  | nil => exact ⟨[], rfl⟩
  | cons a as ih =>
    by_cases ha : p a
    · obtain ⟨t, ht⟩ := ih
      exact ⟨a :: t, by rw [List.dropWhile_cons_of_pos ha]; simpa using ht⟩
    · exact ⟨[], by rw [List.dropWhile_cons_of_neg ha]; rfl⟩

theorem braceSpan_head (s sub : String) (h : braceSpan s = some sub) :
    ∃ r, sub.data = obrace :: r := by
  unfold braceSpan at h
  by_cases he : (braceSpanList s).isEmpty
  · rw [if_pos he] at h; cases h
  · rw [if_neg he] at h
    injection h with h1
    have hne : braceSpanList s ≠ [] := by simpa [List.isEmpty_iff] using he
    obtain ⟨c, r, hcr⟩ : ∃ c r, braceSpanList s = c :: r := by
      cases hx : braceSpanList s with
      | nil => exact absurd hx hne
      | cons c r => exact ⟨c, r, rfl⟩
    obtain ⟨t, ht⟩ := exists_append_dropWhile (p := fun c => c != cbrace) (braceTail s).reverse
    have hrev : (braceSpanList s).reverse = (braceTail s).reverse.dropWhile (fun c => c != cbrace) := by
      unfold braceSpanList; simp
    have htl : braceTail s = braceSpanList s ++ t.reverse := by
      have h2 : (braceTail s).reverse = t ++ (braceSpanList s).reverse := by rw [ht, hrev]
      have h3 := congrArg List.reverse h2
      simpa using h3
    have hhead : s.data.dropWhile (fun c => c != obrace) = c :: (r ++ t.reverse) := by
      have h4 : braceTail s = c :: (r ++ t.reverse) := by rw [htl, hcr]; simp
      simpa [braceTail] using h4
    have hfalse := dropWhile_head_false hhead
    have hc : c = obrace := by simpa using hfalse
    refine ⟨r, ?_⟩
    rw [← h1]
    show braceSpanList s = obrace :: r
    rw [hcr, hc]

theorem parseJValue_obrace (f : Nat) (r : List Char) (v : PyVal) (rest : List Char)
    (h : parseJValue f (obrace :: r) = some (v, rest)) : v.isDict = true := by
  cases f with
  | zero => exact Option.noConfusion h
  | succ fuel =>
    have h0 : isJsonWs obrace = false := rfl
    have hskip : jsonSkipWs (obrace :: r) = obrace :: r := by
      simp [jsonSkipWs, List.dropWhile_cons, h0]
    unfold parseJValue at h
    rw [hskip] at h
    simp only [] at h
    rw [if_pos trivial] at h
    cases hj : jsonSkipWs r with
    | nil => rw [hj] at h; exact Option.noConfusion h
    | cons d rest2 =>
      simp only [hj] at h
      by_cases hd : d = cbrace
      · rw [if_pos hd] at h
        cases h
        rfl
      · rw [if_neg hd] at h
        cases hm : parseJMembers fuel r with
        | none => rw [hm] at h; exact Option.noConfusion h
        | some pr =>
          rw [hm] at h
          simp only [Option.map_some'] at h
          cases h
          rfl

theorem json_loads_dict (s : String) (v : PyVal) (r : List Char)
    (hd : s.data = obrace :: r) (h : json_loads s = some v) : v.isDict = true := by
  unfold json_loads at h
  cases hp : parseJValue (s.length + 4) s.data with
  | none => rw [hp] at h; exact Option.noConfusion h
  | some pr =>
    obtain ⟨w, rest2⟩ := pr
    simp only [hp] at h
    by_cases hw : (jsonSkipWs rest2).isEmpty
    · rw [if_pos hw] at h
      injection h with h1
      rw [hd] at hp
      rw [← h1]
      exact parseJValue_obrace _ _ _ _ hp
    · rw [if_neg hw] at h; exact Option.noConfusion h

theorem mdParse_isDict (s : String) (v : PyVal) (h : mdParse s = some v) : v.isDict = true := by
  unfold mdParse at h
  cases hr : mdRows s with
  | nil => rw [hr] at h; cases h
  | cons r0 rs =>
    rw [hr] at h
    cases rs with
    | nil => cases h
    | cons r1 rs2 =>
      cases rs2 with
      | nil => cases h
      | cons d0 ds =>
        cases h
        rfl

theorem extract_isDict (s : String) : (extract_test_results s).isDict = true := by
  unfold extract_test_results
  cases hb : braceSpan s with
  | none =>
    cases hm : mdParse s with
    | none => simp [hm, PyVal.isDict]
    | some v =>
      simp only [hm]
      exact mdParse_isDict s v hm
  | some sub =>
    cases hj : json_loads sub with
    | none =>
      cases hm : mdParse s with
      | none => simp [hj, hm, PyVal.isDict]
      | some v =>
        simp only [hj, hm]
        exact mdParse_isDict s v hm
    | some v =>
      simp only [hj]
      obtain ⟨r, hd⟩ := braceSpan_head s sub hb
      exact json_loads_dict sub v r hd hj

theorem findStatusKey_strKeys (kvs : List (String × PyVal)) :
    findStatusKey (kvs.map fun kv => PyVal.str kv.1) = .ok (firstStatusKeyOfDict kvs) := by
  unfold firstStatusKeyOfDict
  induction kvs with
  | nil => rfl
  | cons kv rest ih =>
    obtain ⟨k0, v0⟩ := kv
    by_cases h : isStatusName k0 = true
    · simp [findStatusKey, List.find?_cons_of_pos, h]
    · have h2 : isStatusName k0 = false := by simpa using h
      simp only [List.map_cons, findStatusKey, h2, if_neg, Bool.false_eq_true, not_false_iff]
      rw [List.find?_cons_of_neg _ (by simp [h2])]
      simpa using ih

theorem checkCases_wf (cs : List PyVal) (hwf : ∀ c ∈ cs, caseWF c = true) :
    checkCases cs = .ok (cs.any caseTriggers) := by
  induction cs with
  | nil => rfl
  | cons t ts ih =>
    have hwt : caseWF t = true := hwf t (by simp)
    have iht := ih fun c hc => hwf c (by simp [hc])
    cases t with
    | dict kvs =>
      cases hfk : firstStatusKeyOfDict kvs with
      | none =>
        have htr : caseTriggers (.dict kvs) = false := by simp [caseTriggers, hfk]
        simp only [checkCases, pyIterVal, bind, Except.bind, findStatusKey_strKeys, hfk,
          List.any_cons, htr, Bool.false_or]
        exact iht
      | some k =>
        cases hlk : kvs.lookup k with
        | none => simp [caseWF, hfk, hlk] at hwt
        | some w =>
          cases w with
          | str v =>
            by_cases hb : (pyIn "fail" (pyLowerStr v) || pyIn "error" (pyLowerStr v)) = true
            · have htr : caseTriggers (.dict kvs) = true := by
                simp [caseTriggers, hfk, hlk, hb]
              simp only [checkCases, pyIterVal, bind, Except.bind, findStatusKey_strKeys, hfk,
                pySubscript, hlk, pyLowerVal, hb, if_pos, List.any_cons, htr, Bool.true_or]
              rfl
            · have hb2 : (pyIn "fail" (pyLowerStr v) || pyIn "error" (pyLowerStr v)) = false := by
                simpa using hb
              have htr : caseTriggers (.dict kvs) = false := by
                simp [caseTriggers, hfk, hlk, hb2]
              simp only [checkCases, pyIterVal, bind, Except.bind, findStatusKey_strKeys, hfk,
                pySubscript, hlk, pyLowerVal, hb2, Bool.false_eq_true, if_neg, not_false_iff,
                List.any_cons, htr, Bool.false_or]
              exact iht
          | int n => simp [caseWF, hfk, hlk] at hwt
          | float tok => simp [caseWF, hfk, hlk] at hwt
          | bool b => simp [caseWF, hfk, hlk] at hwt
          | none => simp [caseWF, hfk, hlk] at hwt
          | list xs => simp [caseWF, hfk, hlk] at hwt
          | dict kvs2 => simp [caseWF, hfk, hlk] at hwt
    | str s => simp [caseWF] at hwt
    | int n => simp [caseWF] at hwt
    | float tok => simp [caseWF] at hwt
    | bool b => simp [caseWF] at hwt
    | none => simp [caseWF] at hwt
    | list xs => simp [caseWF] at hwt

theorem hasFailedTests_wf (kvs : List (String × PyVal)) (cs : List PyVal)
    (htc : kvs.lookup "test_cases" = some (.list cs))
    (hwf : ∀ c ∈ cs, caseWF c = true) :
    has_failed_tests (.dict kvs) =
      .ok (kwPresent (.dict kvs) && cs.any caseTriggers) := by
  by_cases hkw : kwPresent (.dict kvs) = true
  · simp only [has_failed_tests, hkw, if_pos, htc, pyIterVal, bind, Except.bind,
      checkCases_wf cs hwf, Bool.true_and]
  · have hkw2 : kwPresent (.dict kvs) = false := by simpa using hkw
    simp only [has_failed_tests, hkw2, Bool.false_eq_true, if_neg, not_false_iff,
      Bool.false_and]

theorem runLoop_iteration_le (model : Nat → Except String String) (maxIter : Nat) :
    ∀ fuel cid code iter fin, iter ≤ maxIter →
      (runLoop model maxIter fuel cid code iter fin).iteration ≤ maxIter := by
  intro fuel
  induction fuel with
  | zero =>
    intro cid code iter fin hle
    by_cases hg : maxIter ≤ iter
    · simpa [runLoop, if_pos hg] using hle
    · simpa [runLoop, if_neg hg] using hle
  | succ fuel ih =>
    intro cid code iter fin hle
    by_cases hg : maxIter ≤ iter
    · simpa [runLoop, if_pos hg] using hle
    · have hle2 : iter + 1 ≤ maxIter := by omega
      simp only [runLoop, if_neg hg]
      split
      · simpa [errorOut] using hle2
      · split
        · simpa [errorOut] using hle2
        · simpa using hle2
        · split
          · simpa [errorOut] using hle2
          · exact ih _ _ _ _ hle2

theorem runLoop_final_isDict (model : Nat → Except String String) (maxIter : Nat) :
    ∀ fuel cid code iter fin, fin.isDict = true →
      ((runLoop model maxIter fuel cid code iter fin).final).isDict = true := by
  intro fuel
  induction fuel with
  | zero =>
    intro cid code iter fin hfd
    by_cases hg : maxIter ≤ iter
    · simpa [runLoop, if_pos hg] using hfd
    · simpa [runLoop, if_neg hg] using hfd
  | succ fuel ih =>
    intro cid code iter fin hfd
    by_cases hg : maxIter ≤ iter
    · simpa [runLoop, if_pos hg] using hfd
    · simp only [runLoop, if_neg hg]
      split
      · simpa [errorOut] using dictSet_isDict _ _ _ (dictSet_isDict _ _ _ hfd)
      · split
        · simpa [errorOut] using
            dictSet_isDict _ _ _ (dictSet_isDict _ _ _ (extract_isDict _))
        · simpa using dictSet_isDict _ _ _ (extract_isDict _)
        · split
          · simpa [errorOut] using
              dictSet_isDict _ _ _ (dictSet_isDict _ _ _ (extract_isDict _))
          · exact ih _ _ _ _ (extract_isDict _)

theorem tcgPreWrap_final_isDict (model : Nat → Except String String) (code : String)
    (maxIter : Nat) : (tcgPreWrap model code maxIter).2.isDict = true := by
  have h1 := runLoop_final_isDict model maxIter maxIter 0 code 0 initRecord rfl
  simp only [tcgPreWrap, runLoopFull] at h1 ⊢
  split
  · exact dictSet_isDict _ _ _ h1
  · exact h1

theorem tcg_eq_preWrap (model : Nat → Except String String) (code : String) (maxIter : Nat) :
    test_case_gen_checker model code maxIter = tcgPreWrap model code maxIter := by
  simp only [test_case_gen_checker]
  rw [if_pos (tcgPreWrap_final_isDict model code maxIter)]

theorem loop_alwaysFail (maxIter : Nat) :
    ∀ fuel k code fin, k + fuel = maxIter →
      runLoop alwaysFailModel maxIter fuel (2 * k) code k fin =
        ⟨(if fuel = 0 then code else "fixed code"),
         (if fuel = 0 then fin else failRecord), maxIter, false⟩ := by
  intro fuel
  induction fuel with
  | zero =>
    intro k code fin hk
    have hkm : k = maxIter := by omega
    subst hkm
    simp [runLoop]
  | succ fuel ih =>
    intro k code fin hk
    have hg : ¬ (maxIter ≤ k) := by omega
    have hm0 : alwaysFailModel (2 * k) = .ok failJson := by
      simp [alwaysFailModel, Nat.mul_mod_right]
    have hm1 : analyze_and_fix_code (alwaysFailModel (2 * k + 1)) = .ok "fixed code" := by
      unfold alwaysFailModel analyze_and_fix_code
      rw [if_neg (by omega)]
      rfl
    have hex : extract_test_results failJson = failRecord := rfl
    have hhf : has_failed_tests failRecord = .ok true := rfl
    simp only [runLoop, if_neg hg, hm0, hex, hhf, hm1]
    rw [show 2 * k + 2 = 2 * (k + 1) from by ring]
    rw [ih (k + 1) "fixed code" failRecord (by omega)]
    simp

theorem loop_err (model : Nat → Except String String) (maxIter : Nat) (e : String) :
    ∀ i k fuel code fin, fin.isDict = true → i < fuel → k + fuel ≤ maxIter →
      (∀ c, c < i → ∃ s, model (2 * (k + c)) = .ok s ∧
          has_failed_tests (extract_test_results s) = .ok true) →
      (∀ c, c < i → ∃ t, model (2 * (k + c) + 1) = .ok t) →
      (model (2 * (k + i)) = .error e ∨
        (∃ s, model (2 * (k + i)) = .ok s ∧
          has_failed_tests (extract_test_results s) = .ok true ∧
          model (2 * (k + i) + 1) = .error e)) →
      ∃ code2 fin2,
        runLoop model maxIter fuel (2 * k) code k fin = ⟨code2, fin2, k + i + 1, false⟩ ∧
        fin2.isDict = true ∧
        dictGet fin2 "status" = some (.str "error") ∧
        dictGet fin2 "error_message" = some (.str e) := by
  intro i
  induction i with
  | zero =>
    intro k fuel code fin hfd hif hkf hgen hrep herr
    obtain ⟨f, rfl⟩ : ∃ f, fuel = f + 1 := ⟨fuel - 1, by omega⟩
    have hg : ¬ (maxIter ≤ k) := by omega
    rcases herr with herr | ⟨s, hs, hsf, herr2⟩
    · rw [show 2 * (k + 0) = 2 * k from by ring] at herr
      simp only [runLoop, if_neg hg, herr]
      refine ⟨code, dictSet (dictSet fin "status" (.str "error")) "error_message" (.str e),
        ?_, ?_, ?_, ?_⟩
      · simp [errorOut]
      · exact dictSet_isDict _ _ _ (dictSet_isDict _ _ _ hfd)
      · rw [dictGet_dictSet_ne _ _ _ _ (dictSet_isDict _ _ _ hfd) (by decide)]
        exact dictGet_dictSet_self _ _ _ hfd
      · exact dictGet_dictSet_self _ _ _ (dictSet_isDict _ _ _ hfd)
    · rw [show 2 * (k + 0) = 2 * k from by ring] at hs
      rw [show 2 * (k + 0) + 1 = 2 * k + 1 from by ring] at herr2
      have hfix : analyze_and_fix_code (model (2 * k + 1)) = .error e := by
        rw [analyze_and_fix_code, herr2]
        rfl
      have hd0 : (extract_test_results s).isDict = true := extract_isDict s
      simp only [runLoop, if_neg hg, hs, hsf, hfix]
      refine ⟨code, dictSet (dictSet (extract_test_results s) "status" (.str "error"))
        "error_message" (.str e), ?_, ?_, ?_, ?_⟩
      · simp [errorOut]
      · exact dictSet_isDict _ _ _ (dictSet_isDict _ _ _ hd0)
      · rw [dictGet_dictSet_ne _ _ _ _ (dictSet_isDict _ _ _ hd0) (by decide)]
        exact dictGet_dictSet_self _ _ _ hd0
      · exact dictGet_dictSet_self _ _ _ (dictSet_isDict _ _ _ hd0)
  | succ i ih =>
    intro k fuel code fin hfd hif hkf hgen hrep herr
    obtain ⟨f, rfl⟩ : ∃ f, fuel = f + 1 := ⟨fuel - 1, by omega⟩
    have hg : ¬ (maxIter ≤ k) := by omega
    obtain ⟨s, hs, hsf⟩ := hgen 0 (Nat.succ_pos i)
    obtain ⟨t, htt⟩ := hrep 0 (Nat.succ_pos i)
    rw [show 2 * (k + 0) = 2 * k from by ring] at hs
    rw [show 2 * (k + 0) + 1 = 2 * k + 1 from by ring] at htt
    have hfix : analyze_and_fix_code (model (2 * k + 1)) = .ok (code_extractor t) := by
      rw [analyze_and_fix_code, htt]
      rfl
    simp only [runLoop, if_neg hg, hs, hsf, hfix]
    rw [show 2 * k + 2 = 2 * (k + 1) from by ring]
    have hrec := ih (k + 1) f (code_extractor t) (extract_test_results s) (extract_isDict s)
      (by omega) (by omega)
      (fun c hc => by
        have hx := hgen (c + 1) (by omega)
        simpa [show k + 1 + c = k + (c + 1) from by ring] using hx)
      (fun c hc => by
        have hx := hrep (c + 1) (by omega)
        simpa [show k + 1 + c = k + (c + 1) from by ring] using hx)
      (by
        rcases herr with h | ⟨s2, hs2, hsf2, h2⟩
        · exact Or.inl (by
            rw [show 2 * (k + 1 + i) = 2 * (k + (i + 1)) from by ring]
            exact h)
        · exact Or.inr ⟨s2,
            by rw [show 2 * (k + 1 + i) = 2 * (k + (i + 1)) from by ring]; exact hs2,
            hsf2,
            by rw [show 2 * (k + 1 + i) + 1 = 2 * (k + (i + 1)) + 1 from by ring]; exact h2⟩)
    obtain ⟨code2, fin2, heq, hd2, hst, hem⟩ := hrec
    refine ⟨code2, fin2, ?_, hd2, hst, hem⟩
    rw [heq]
    have harith : k + 1 + i + 1 = k + (i + 1) + 1 := by omega
    rw [harith]

theorem mem_dropWhile_of_neg {p : Char → Bool} {c : Char} :
    ∀ l : List Char, c ∈ l → p c = false → c ∈ l.dropWhile p := by
  intro l
  induction l with
  | nil => intro h _; cases h
  | cons a as ih =>
    intro hc hpc
    by_cases ha : p a
    · rw [List.dropWhile_cons_of_pos ha]
      rcases List.mem_cons.mp hc with h1 | h2
      · subst h1
        exact absurd ha (by simp [hpc])
      · exact ih h2 hpc
    · rw [List.dropWhile_cons_of_neg ha]
      exact hc

theorem pyStripList_ne_nil {l : List Char} {c : Char} (hc : c ∈ l) (hw : isPyWs c = false) :
    pyStripList l ≠ [] := by
  unfold pyStripList
  intro h
  have h1 : c ∈ l.dropWhile isPyWs := mem_dropWhile_of_neg l hc hw
  have h2 : c ∈ (l.dropWhile isPyWs).reverse := List.mem_reverse.mpr h1
  have h3 : c ∈ (l.dropWhile isPyWs).reverse.dropWhile isPyWs :=
    mem_dropWhile_of_neg _ h2 hw
  have h4 : c ∈ ((l.dropWhile isPyWs).reverse.dropWhile isPyWs).reverse :=
    List.mem_reverse.mpr h3
  rw [h] at h4
  cases h4

/-! ## Claim theorems -/

/-- C1 (counterexample): the claim that a model exception always yields
status `"error"` fails when the exception occurs during the final permitted
iteration: with `max_iterations = 1` and a model whose first call raises
`"boom"`, the post-loop exhaustion check overwrites the status to
`"max_iterations_reached"` even though `error_message` is set. -/
theorem repairLoop_error_at_cap_overwritten :
    dictGet (test_case_gen_checker alwaysErrModel "initial" 1).2 "status" =
      some (.str "max_iterations_reached") ∧
    dictGet (test_case_gen_checker alwaysErrModel "initial" 1).2 "error_message" =
      some (.str "boom") ∧
    dictGet (test_case_gen_checker alwaysErrModel "initial" 1).2 "status" ≠
      some (.str "error") := by
  refine ⟨rfl, rfl, ?_⟩
  intro h
  rw [show dictGet (test_case_gen_checker alwaysErrModel "initial" 1).2 "status" =
      some (.str "max_iterations_reached") from rfl] at h
  simp at h

/-- C1 (amended): if a model-invocation step — either the test-generation
call or the repair call of `analyze_and_fix_code` — raises during cycle
`i + 1` and that is not the final permitted cycle (`i + 1 < maxIterations`),
the run stops immediately after that cycle (the loop exits at iteration
`i + 1` without converging), the returned record's status is `"error"` and
its `error_message` is the exception's message.  (When the exception occurs
during the final permitted cycle the status is overwritten to
`"max_iterations_reached"`; see the counterexample.) -/
theorem repairLoop_error_before_cap (model : Nat → Except String String) (code : String)
    (maxIter i : Nat) (e : String)
    (hi : i + 1 < maxIter)
    (hgen : ∀ c, c < i → ∃ s, model (2 * c) = .ok s ∧
        has_failed_tests (extract_test_results s) = .ok true)
    (hrep : ∀ c, c < i → ∃ t, model (2 * c + 1) = .ok t)
    (herr : model (2 * i) = .error e ∨
      (∃ s, model (2 * i) = .ok s ∧
        has_failed_tests (extract_test_results s) = .ok true ∧
        model (2 * i + 1) = .error e)) :
    (runLoopFull model code maxIter).iteration = i + 1 ∧
    (runLoopFull model code maxIter).allPass = false ∧
    dictGet (test_case_gen_checker model code maxIter).2 "status" = some (.str "error") ∧
    dictGet (test_case_gen_checker model code maxIter).2 "error_message" =
      some (.str e) := by
  have h := loop_err model maxIter e i 0 maxIter code initRecord rfl (by omega) (by omega)
    (fun c hc => by simpa using hgen c hc)
    (fun c hc => by simpa using hrep c hc)
    (by
      rcases herr with h1 | ⟨s, hs, hsf, h2⟩
      · exact Or.inl (by simpa using h1)
      · exact Or.inr ⟨s, by simpa using hs, hsf, by simpa using h2⟩)
  obtain ⟨code2, fin2, heq, hd2, hst, hem⟩ := h
  rw [show (2 : Nat) * 0 = 0 from rfl] at heq
  have hfull : runLoopFull model code maxIter = ⟨code2, fin2, i + 1, false⟩ := by
    unfold runLoopFull
    simpa using heq
  refine ⟨by rw [hfull], by rw [hfull], ?_, ?_⟩
  all_goals rw [tcg_eq_preWrap]
  all_goals simp only [tcgPreWrap, hfull]
  all_goals rw [if_neg (by intro hcond; exact absurd hcond.2 (by omega))]
  · exact hst
  · exact hem

/-- C1 (witness): the amended theorem applied to both raise sites — a model
whose first (test-generation) call raises `"boom"` with `max_iterations = 2`,
and a model whose second (repair) call raises `"boom2"` with
`max_iterations = 3`. -/
theorem repairLoop_error_before_cap_witness :
    ((runLoopFull alwaysErrModel "initial" 2).iteration = 1 ∧
     (runLoopFull alwaysErrModel "initial" 2).allPass = false ∧
     dictGet (test_case_gen_checker alwaysErrModel "initial" 2).2 "status" =
       some (.str "error") ∧
     dictGet (test_case_gen_checker alwaysErrModel "initial" 2).2 "error_message" =
       some (.str "boom")) ∧
    ((runLoopFull repairErrModel "initial" 3).iteration = 1 ∧
     (runLoopFull repairErrModel "initial" 3).allPass = false ∧
     dictGet (test_case_gen_checker repairErrModel "initial" 3).2 "status" =
       some (.str "error") ∧
     dictGet (test_case_gen_checker repairErrModel "initial" 3).2 "error_message" =
       some (.str "boom2")) :=
  ⟨repairLoop_error_before_cap alwaysErrModel "initial" 2 0 "boom" (by omega)
      (fun c hc => absurd hc (Nat.not_lt_zero c))
      (fun c hc => absurd hc (Nat.not_lt_zero c))
      (Or.inl rfl),
   repairLoop_error_before_cap repairErrModel "initial" 3 0 "boom2" (by omega)
      (fun c hc => absurd hc (Nat.not_lt_zero c))
      (fun c hc => absurd hc (Nat.not_lt_zero c))
      (Or.inr ⟨failJson, rfl, rfl, rfl⟩)⟩

/-- C2 (counterexample): the header list built from row 0 of the documented
markdown table is `["name", "status"]`; it does not contain empty strings at
position 0 and at the last position, contrary to the claim, because the row
regex capture excludes the outer pipes. -/
theorem markdown_headers_no_empty_boundary :
    mdHeaders mdExample = some ["name", "status"] ∧
    ((mdHeaders mdExample).getD []).head? ≠ some "" ∧
    ((mdHeaders mdExample).getD []).getLast? ≠ some "" := by
  refine ⟨rfl, ?_, ?_⟩ <;> decide

/-- C2 (amended): the capture group of `r"^\|(.*)\|$"` excludes the two
outer pipes, so the header list consists exactly of the trimmed inner cells
(no empty boundary cells are introduced), and on the documented example the
parse yields `{"test_cases": [{"name": "t1", "status": "FAIL"}]}`. -/
theorem markdown_capture_excludes_outer_pipes :
    (∀ mid : List Char, rowCapture ('|' :: (mid ++ ['|'])) = some mid) ∧
    mdHeaders mdExample = some ["name", "status"] ∧
    extract_test_results mdExample =
      .dict [("test_cases", .list [.dict [("name", .str "t1"), ("status", .str "FAIL")]])] := by
  refine ⟨?_, rfl, rfl⟩
  intro mid
  simp [rowCapture, List.getLast?_concat, List.dropLast_concat]

/-- C3: the iteration counter starts at 0 and is compared against
`maxIterations` before each cycle's work, so the loop performs at most
`maxIterations` cycles (and terminates, being a total function); with the
always-failing stub it performs exactly `maxIterations` cycles and the
returned record's status is `"max_iterations_reached"`. -/
theorem repairLoop_iteration_cap :
    (∀ (model : Nat → Except String String) (code : String) (maxIter : Nat),
      (runLoopFull model code maxIter).iteration ≤ maxIter) ∧
    (∀ (code : String) (maxIter : Nat),
      (runLoopFull alwaysFailModel code maxIter).iteration = maxIter ∧
      dictGet (test_case_gen_checker alwaysFailModel code maxIter).2 "status" =
        some (.str "max_iterations_reached")) := by
  constructor
  · intro model code maxIter
    exact runLoop_iteration_le model maxIter maxIter 0 code 0 initRecord (Nat.zero_le _)
  · intro code maxIter
    have hloop := loop_alwaysFail maxIter maxIter 0 code initRecord (by omega)
    rw [show (2 : Nat) * 0 = 0 from rfl] at hloop
    have hfull : runLoopFull alwaysFailModel code maxIter =
        ⟨(if maxIter = 0 then code else "fixed code"),
         (if maxIter = 0 then initRecord else failRecord), maxIter, false⟩ := hloop
    refine ⟨by rw [hfull], ?_⟩
    rw [tcg_eq_preWrap]
    by_cases h0 : maxIter = 0
    · subst h0
      rfl
    · obtain ⟨n, rfl⟩ : ∃ n, maxIter = n + 1 := ⟨maxIter - 1, by omega⟩
      have hfull2 : runLoopFull alwaysFailModel code (n + 1) =
          ⟨"fixed code", failRecord, n + 1, false⟩ := by
        rw [hfull]
        simp
      simp only [tcgPreWrap, hfull2]
      rw [if_pos (by simp)]
      rfl

/-- C4: for a record that is a dict whose `test_cases` key holds a list of
well-formed cases, `has_failed_tests` returns `True` exactly when the
lowercase string rendering of the whole record contains `"fail"` or
`"error"` and some case's (first) status/pass-named key holds a value
containing `"fail"` or `"error"`; failure keywords elsewhere in the record
do not by themselves produce `True` for this shape. -/
theorem hasFailedTests_testCases_characterization (kvs : List (String × PyVal))
    (cs : List PyVal)
    (htc : kvs.lookup "test_cases" = some (.list cs))
    (hwf : ∀ c ∈ cs, caseWF c = true) :
    has_failed_tests (.dict kvs) = .ok true ↔
      (kwPresent (.dict kvs) = true ∧ cs.any caseTriggers = true) := by
  rw [hasFailedTests_wf kvs cs htc hwf]
  constructor
  · intro h
    injection h with hb
    simpa using hb
  · rintro ⟨ha, hb⟩
    rw [ha, hb]
    rfl

/-- C4 (witness): the characterization applied to a one-case failing record. -/
theorem hasFailedTests_testCases_characterization_witness :
    has_failed_tests (.dict [("test_cases", .list [.dict [("status", .str "FAIL")]])]) =
      .ok true :=
  (hasFailedTests_testCases_characterization
    [("test_cases", .list [.dict [("status", .str "FAIL")]])]
    [.dict [("status", .str "FAIL")]] rfl (by decide)).mpr ⟨rfl, rfl⟩

/-- C5: `extract_test_results` first takes the substring from the first
opening brace to the last closing brace and attempts strict JSON decoding of
exactly that substring; when decoding succeeds the decoded object is
returned as-is, before any markdown-table parsing is attempted. -/
theorem extractTestResults_json_priority (s sub : String) (v : PyVal)
    (h1 : braceSpan s = some sub) (h2 : json_loads sub = some v) :
    extract_test_results s = v := by
  simp only [extract_test_results, h1, h2]

/-- C5 (witness): on `jsonExample` the JSON strategy fires and returns the
decoded object. -/
theorem extractTestResults_json_priority_witness :
    extract_test_results jsonExample =
      .dict [("test_cases", .list [.dict [("status", .str "PASS")]])] :=
  extractTestResults_json_priority jsonExample jsonExampleSpan
    (.dict [("test_cases", .list [.dict [("status", .str "PASS")]])]) rfl rfl

/-- C6: `extract_test_results` is total (the source wraps both strategies in
an exception-absorbing handler), and when the JSON strategy fails on any
found brace span and the markdown strategy finds no table, it returns
`{"raw_output": <the input text>}`. -/
theorem extractTestResults_fallback_no_raise (s : String)
    (hjson : ∀ sub, braceSpan s = some sub → json_loads sub = Option.none)
    (hmd : mdParse s = Option.none) :
    extract_test_results s = .dict [("raw_output", .str s)] := by
  cases hb : braceSpan s with
  | none => simp only [extract_test_results, hb, hmd]
  | some sub => simp only [extract_test_results, hb, hjson sub hb, hmd]

/-- C6 (witness): the fallback on unstructured text. -/
theorem extractTestResults_fallback_no_raise_witness :
    extract_test_results "no structured output" =
      .dict [("raw_output", .str "no structured output")] :=
  extractTestResults_fallback_no_raise "no structured output"
    (fun _ h => Option.noConfusion h) rfl

/-- C7 (counterexample): a non-empty input holding an empty fenced block
makes `code_extractor` return the empty string, refuting the claim that the
artifact is non-empty unless the input was empty. -/
theorem code_extractor_empty_fence_cex :
    code_extractor "```\n\n```" = "" ∧ ("```\n\n```" : String) ≠ "" := by
  refine ⟨rfl, ?_⟩
  decide

/-- C7 (amended): the artifact is the stripped contents of the first fenced
block when one exists (which can be empty even on non-empty input, as the
counterexample shows), otherwise the entire stripped text; in the no-fence
case it is non-empty whenever the input contains a non-whitespace
character. -/
theorem code_extractor_nonempty_amended (s : String)
    (hnf : findFence s.data = Option.none)
    (hc : ∃ c ∈ s.data, isPyWs c = false) :
    code_extractor s = pyStrip s ∧ code_extractor s ≠ "" := by
  have heq : code_extractor s = pyStrip s := by
    simp only [code_extractor, hnf]
  refine ⟨heq, ?_⟩
  rw [heq]
  intro h
  obtain ⟨c, hcm, hcw⟩ := hc
  have hdata : pyStripList s.data = [] := congrArg String.data h
  exact pyStripList_ne_nil hcm hcw hdata

/-- C7 (witness): the amended theorem applied to fence-free text. -/
theorem code_extractor_nonempty_amended_witness :
    code_extractor "plain text" = pyStrip "plain text" ∧ code_extractor "plain text" ≠ "" :=
  code_extractor_nonempty_amended "plain text" rfl (by decide)

/-- C8: with a model whose first response yields a record with no detected
failures, the run performs exactly one generate/evaluate cycle, the returned
record is that record with status `"complete_success"`, and the returned
code is the original initial code unchanged (no repair call is made and the
current-code value is never replaced). -/
theorem repairLoop_success_one_cycle (model : Nat → Except String String) (code : String)
    (maxIter : Nat) (s : String)
    (h1 : 1 ≤ maxIter) (h2 : model 0 = .ok s)
    (h3 : has_failed_tests (extract_test_results s) = .ok false) :
    test_case_gen_checker model code maxIter =
      (code, dictSet (extract_test_results s) "status" (.str "complete_success")) ∧
    (runLoopFull model code maxIter).iteration = 1 := by
  obtain ⟨m, rfl⟩ : ∃ m, maxIter = m + 1 := ⟨maxIter - 1, by omega⟩
  have hg : ¬ (m + 1 ≤ 0) := by omega
  have hfull : runLoopFull model code (m + 1) =
      ⟨code, dictSet (extract_test_results s) "status" (.str "complete_success"),
        1, true⟩ := by
    unfold runLoopFull
    simp [runLoop, if_neg hg, h2, h3]
  constructor
  · rw [tcg_eq_preWrap]
    simp only [tcgPreWrap, hfull]
    rw [if_neg (by simp)]
  · rw [hfull]

/-- C8 (witness): the theorem applied to the always-pass stub. -/
theorem repairLoop_success_one_cycle_witness :
    test_case_gen_checker alwaysPassModel "orig" 3 =
      ("orig", dictSet (extract_test_results passJson) "status" (.str "complete_success")) ∧
    (runLoopFull alwaysPassModel "orig" 3).iteration = 1 :=
  repairLoop_success_one_cycle alwaysPassModel "orig" 3 passJson (by omega) rfl rfl

/-- C9: `extract_test_results` always returns a dict (the brace-span regex
guarantees a successfully decoded JSON document is an object, the markdown
path wraps its rows in a dict, and the fallback is a dict), and therefore
the RepairLoop's defensive wrapping of a non-dict result is never
exercised: `test_case_gen_checker` coincides with its unwrapped form. -/
theorem extractTestResults_always_dict :
    (∀ s : String, (extract_test_results s).isDict = true) ∧
    (∀ (model : Nat → Except String String) (code : String) (maxIter : Nat),
      test_case_gen_checker model code maxIter = tcgPreWrap model code maxIter) :=
  ⟨extract_isDict, tcg_eq_preWrap⟩

/-- C10 (counterexample): a record whose `test_cases` list contains a case
with a non-string `status` value does not make `has_failed_tests` raise when
the record's rendering lacks the failure keywords — it returns `False` —
refuting the claim that such a shape always raises. -/
theorem hasFailedTests_nonstring_no_raise :
    has_failed_tests (.dict [("test_cases", .list [.dict [("status", .int 1)]])]) =
      .ok false := rfl

/-- C10 (amended): `has_failed_tests` is not total, but only inputs passing
the keyword gate can raise: with `"fail"` present in the rendering, a case
whose first status/pass key holds a number raises (`.lower()` on a
non-string); and the function is total on every record whose `test_cases`
list contains only well-formed cases (mappings whose first status/pass-named
key, if any, holds a string). -/
theorem hasFailedTests_partiality_amended :
    has_failed_tests
        (.dict [("test_cases", .list [.dict [("status", .int 1)]]), ("note", .str "fail")]) =
      .error "AttributeError: object has no attribute lower" ∧
    (∀ (kvs : List (String × PyVal)) (cs : List PyVal),
      kvs.lookup "test_cases" = some (.list cs) →
      (∀ c ∈ cs, caseWF c = true) →
      ∃ b, has_failed_tests (.dict kvs) = .ok b) := by
  refine ⟨rfl, ?_⟩
  intro kvs cs htc hwf
  exact ⟨_, hasFailedTests_wf kvs cs htc hwf⟩

/-- C10 (witness): totality on a well-formed passing record. -/
theorem hasFailedTests_partiality_amended_witness :
    ∃ b, has_failed_tests
      (.dict [("test_cases", .list [.dict [("status", .str "PASS")]])]) = .ok b :=
  hasFailedTests_partiality_amended.2
    [("test_cases", .list [.dict [("status", .str "PASS")]])]
    [.dict [("status", .str "PASS")]] rfl (by decide)
